import Mathlib

/-!
Verification of the hesmapy JSON ingestion layer.

This file gives a shallow embedding of the core of the `hesmapy` package:
the model normalizer and validator of `hesmapy/json_base.py` (duplicated
verbatim in `hesmapy/hydro/hydro1d.py`), the accessors of
`hesmapy/hydro/hydro1d.py` and `hesmapy/rt/lightcurves.py`, and the
abundance helper of `hesmapy/hydro/utils.py`.  Python dictionaries are
embedded as insertion-ordered association lists (first-match lookup,
in-place update, append on fresh keys), Python floats as rationals, and
exceptions as `Except` values.
-/

set_option autoImplicit false

namespace Hesmapy

/-- Parsed JSON values.  Objects are insertion-ordered association lists,
mirroring Python dictionaries produced by `json.load`. -/
inductive Json where
  | null
  | bool (b : Bool)
  | num (q : ℚ)
  | str (s : String)
  | arr (xs : List Json)
  | obj (kvs : List (String × Json))

/-- Python exceptions that the embedded code can raise. -/
inductive Err where
  | typeError (msg : String)
  | keyError (key : String)
  | indexError
  | assertionError (msg : String)
  | notImplementedError (msg : String)
  deriving DecidableEq

/-- First-match lookup in an association list: Python `d[k]` / `d.get(k)`. -/
def jget : List (String × Json) → String → Option Json
  | [], _ => none
  | (k, v) :: tl, key => if k = key then some v else jget tl key

/-- Python `k in d` for a dictionary. -/
def hasKey (kvs : List (String × Json)) (k : String) : Bool :=
  (jget kvs k).isSome

/-- Python `d[k] = v`: replace the first binding of `k` in place, or append
a fresh binding at the end (dict insertion order). -/
def setKey : List (String × Json) → String → Json → List (String × Json)
  | [], k, v => [(k, v)]
  | (k', v') :: tl, k, v =>
      if k' = k then (k, v) :: tl else (k', v') :: setKey tl k v

/-- `Except.ok`-ness as a Boolean. -/
def isOkE {α : Type} : Except Err α → Bool
  | .ok _ => true
  | .error _ => false

/-- Model selectors accepted by `HesmaBaseJSONFile._get_model`: an `int`, a
`str`, or some other Python value (exemplified by a float). -/
inductive Selector where
  | int (i : ℤ)
  | str (s : String)
  | float (q : ℚ)

/-- Python list indexing `models[i]` with negative-index wrap-around:
`IndexError` when `i` is out of `[-len, len)`. -/
def pyIndex (ms : List String) (i : ℤ) : Except Err String :=
  if 0 ≤ i then
    if i < (ms.length : ℤ) then .ok (ms.getD i.toNat "") else .error .indexError
  else
    if -(ms.length : ℤ) ≤ i then .ok (ms.getD ((ms.length : ℤ) + i).toNat "")
    else .error .indexError

/-- `HesmaBaseJSONFile._get_model` (json_base.py lines 72-82): `None` gives
the first model, an `int` is asserted to be `< len(models)` and then used as
a Python list index, a `str` is asserted to be a known model name, and any
other type raises `TypeError`. -/
def getModel (ms : List String) : Option Selector → Except Err String
  | none =>
      match ms with
      | [] => .error .indexError
      | m :: _ => .ok m
  | some (.int i) =>
      if (ms.length : ℤ) ≤ i then .error (.assertionError "Invalid model index")
      else pyIndex ms i
  | some (.str s) =>
      if ms.contains s then .ok s else .error (.assertionError "Invalid model name")
  | some (.float _) => .error (.typeError "Invalid model type")

/-! ## The model normalizer (`_multiple_models`, json_base.py lines 24-52) -/

/-- `list(item.keys())[0]`: the first key of a dictionary item;
`IndexError` on an empty dictionary.  Only called on values already known
to be dictionaries. -/
def firstKey : Json → Except Err String
  | .obj ((k, _) :: _) => .ok k
  | .obj [] => .error .indexError
  | _ => .error (.typeError "not a dict")

/-- `item[list(item.keys())[0]]`: the value under the first key. -/
def firstVal : Json → Except Err Json
  | .obj ((_, v) :: _) => .ok v
  | .obj [] => .error .indexError
  | _ => .error (.typeError "not a dict")

/-- First loop of `_multiple_models` over a top-level list: collect the
first key of each dictionary item; a non-dictionary item sets
`valid = False` and breaks, keeping the keys collected so far.  Returns the
collected names and whether the loop ran to completion (Python `for`-`else`). -/
def collectKeys : List Json → Except Err (List String × Bool)
  | [] => .ok ([], true)
  | item :: rest =>
      match item with
      | .obj ((k, _) :: _) => do
          let (ms, completed) ← collectKeys rest
          .ok (k :: ms, completed)
      | .obj [] => .error .indexError
      | _ => .ok ([], false)

/-- Second loop of `_multiple_models` (lines 39-47): rebuild the list of
single-key items as one dictionary, renaming a model whose name is already
a key of the dictionary built so far to `name_i` (where `i` is its position),
and recording the possibly renamed name at position `i` of the model list. -/
def buildModels (i : Nat) (acc : List (String × Json)) :
    List Json → Except Err (List String × List (String × Json))
  | [] => .ok ([], acc)
  | item :: rest => do
      let k ← firstKey item
      let v ← firstVal item
      let name := if hasKey acc k then k ++ "_" ++ toString i else k
      let (ms, d) ← buildModels (i + 1) (setKey acc name v) rest
      .ok (name :: ms, d)

/-- `HesmaBaseJSONFile._multiple_models`: returns the (possibly rebuilt)
data value, the model list, and the provisional validity flag as it stands
when the method returns (initially `True`; set to `False` when the top level
is neither a dictionary nor a list of dictionaries). -/
def multipleModels : Json → Except Err (Json × List String × Bool)
  | .obj kvs => .ok (.obj kvs, kvs.map Prod.fst, true)
  | .arr items => do
      let (ms, completed) ← collectKeys items
      if completed then do
        let (ms', d) ← buildModels 0 [] items
        .ok (.obj d, ms', true)
      else
        .ok (.arr items, ms, false)
  | j => .ok (j, [], false)

/-! ## The validator

The repository delegates schema checking to the external `jsonschema`
library, applied to the three static schema constants of
`hesmapy/constants.py`.  Those schemas use only the keywords `type`
(object / array / string / number), `properties`, `required`, `items` and
`minItems`, so applying `jsonschema` to each constant unrolls to the
first-order checkers below: a `type` mismatch fails, a property listed
under `properties` is checked only when present, `required` names must be
present, `items` must hold of every element, and `minItems` bounds the
array length.  A schema here is therefore embedded as its checker,
`Json → Bool`. -/

def isStr : Json → Bool
  | .str _ => true
  | _ => false

def isNum : Json → Bool
  | .num _ => true
  | _ => false

/-- A property under `properties`: checked only when present. -/
def optProp (kvs : List (String × Json)) (k : String) (check : Json → Bool) : Bool :=
  match jget kvs k with
  | some v => check v
  | none => true

/-- One entry of the `sources` arrays (shared by all three schemas):
`type: object` with optional string `bibcode`, `reference`, `url`. -/
def checkSource (j : Json) : Bool :=
  match j with
  | .obj kvs =>
      optProp kvs "bibcode" isStr && optProp kvs "reference" isStr &&
        optProp kvs "url" isStr
  | _ => false

/-- The `sources` property: `type: array` whose items are sources. -/
def checkSources (j : Json) : Bool :=
  match j with
  | .arr xs => xs.all checkSource
  | _ => false

/-- `HESMA_BASE_JSON_SCHEMA` (constants.py lines 6-24): `type: object`,
optional string `name` and `schema`, optional `sources`, required `name`. -/
def validateBase (j : Json) : Bool :=
  match j with
  | .obj kvs =>
      optProp kvs "name" isStr && optProp kvs "schema" isStr &&
        optProp kvs "sources" checkSources && hasKey kvs "name"
  | _ => false

/-- The `units` property of `HYDRO1D_JSON_SCHEMA`: an object of optional
string units for the seven hydro fields. -/
def checkHydroUnits (j : Json) : Bool :=
  match j with
  | .obj kvs =>
      optProp kvs "radius" isStr && optProp kvs "density" isStr &&
        optProp kvs "pressure" isStr && optProp kvs "temperature" isStr &&
        optProp kvs "mass" isStr && optProp kvs "velocity" isStr &&
        optProp kvs "time" isStr
  | _ => false

/-- One row of the hydro `data` array: numeric fields, with `radius`,
`density` and `time` required.  The compiled-regex dictionary key
`HYDRO1D_ABUNDANCE_REGEX` listed under the row `properties` in
constants.py can never compare equal to a string property name, so under
`jsonschema` semantics it is a dead entry and imposes nothing. -/
def checkHydroRow (j : Json) : Bool :=
  match j with
  | .obj kvs =>
      optProp kvs "radius" isNum && optProp kvs "density" isNum &&
        optProp kvs "pressure" isNum && optProp kvs "temperature" isNum &&
        optProp kvs "mass" isNum && optProp kvs "velocity" isNum &&
        optProp kvs "time" isNum &&
        hasKey kvs "radius" && hasKey kvs "density" && hasKey kvs "time"
  | _ => false

/-- The hydro `data` property: `type: array`, `minItems: 2`, rows as items. -/
def checkHydroData (j : Json) : Bool :=
  match j with
  | .arr xs => xs.all checkHydroRow && decide (2 ≤ xs.length)
  | _ => false

/-- `HYDRO1D_JSON_SCHEMA` (constants.py lines 30-78). -/
def validateHydro1d (j : Json) : Bool :=
  match j with
  | .obj kvs =>
      optProp kvs "name" isStr && optProp kvs "schema" isStr &&
        optProp kvs "sources" checkSources &&
        optProp kvs "units" checkHydroUnits &&
        optProp kvs "data" checkHydroData &&
        hasKey kvs "name" && hasKey kvs "data"
  | _ => false

/-- The lightcurve `units` property: an object with an optional string
`time`. -/
def checkLcUnits (j : Json) : Bool :=
  match j with
  | .obj kvs => optProp kvs "time" isStr
  | _ => false

/-- One row of the lightcurve `data` array: `magnitude`, `time`,
`viewing_angle` and `band` required. -/
def checkLcRow (j : Json) : Bool :=
  match j with
  | .obj kvs =>
      optProp kvs "time" isNum && optProp kvs "magnitude" isNum &&
        optProp kvs "e_magnitude" isNum && optProp kvs "band" isStr &&
        optProp kvs "viewing_angle" isNum &&
        hasKey kvs "magnitude" && hasKey kvs "time" &&
        hasKey kvs "viewing_angle" && hasKey kvs "band"
  | _ => false

/-- The lightcurve `data` property: `type: array`, `minItems: 2`. -/
def checkLcData (j : Json) : Bool :=
  match j with
  | .arr xs => xs.all checkLcRow && decide (2 ≤ xs.length)
  | _ => false

/-- One row of the lightcurve `derived_data` array: all properties
optional. -/
def checkLcDerivedRow (j : Json) : Bool :=
  match j with
  | .obj kvs =>
      optProp kvs "peak_mag" isNum && optProp kvs "peak_time" isNum &&
        optProp kvs "rise_time" isNum && optProp kvs "decline_rate_15" isNum &&
        optProp kvs "decline_rate_40" isNum && optProp kvs "band" isStr &&
        optProp kvs "viewing_angle" isNum
  | _ => false

/-- The lightcurve `derived_data` property: `type: array`, no `minItems`. -/
def checkLcDerivedData (j : Json) : Bool :=
  match j with
  | .arr xs => xs.all checkLcDerivedRow
  | _ => false

/-- `RT_LIGHTCURVE_JSON_SCHEMA` (constants.py lines 83-137). -/
def validateRtLightcurve (j : Json) : Bool :=
  match j with
  | .obj kvs =>
      optProp kvs "name" isStr && optProp kvs "schema" isStr &&
        optProp kvs "sources" checkSources &&
        optProp kvs "units" checkLcUnits &&
        optProp kvs "data" checkLcData &&
        optProp kvs "derived_data" checkLcDerivedData &&
        hasKey kvs "name" && hasKey kvs "data"
  | _ => false

/-- `HesmaBaseJSONFile._validate_data` (json_base.py lines 62-70): validate
`self.data[model]` for each recorded model name, returning `False` on the
first failure (`ValidationError` is caught and collapsed to the Boolean).
Indexing `self.data` with a string raises `TypeError` when the stored data
is still a list (or a scalar), and `KeyError` when the key is missing. -/
def validateData (data : Json) (schema : Json → Bool) : List String → Except Err Bool
  | [] => .ok true
  | m :: rest =>
      match data with
      | .obj kvs =>
          match jget kvs m with
          | some body =>
              if schema body then validateData data schema rest
              else .ok false
          | none => .error (.keyError m)
      | .arr _ => .error (.typeError "list indices must be integers")
      | _ => .error (.typeError "object is not subscriptable")

/-- The in-memory document built by `HesmaBaseJSONFile.__init__` (and the
verbatim copy in `Hydro1D.__init__`). -/
structure Doc where
  data : Json
  models : List String
  multiModel : Bool
  valid : Bool

/-- `HesmaBaseJSONFile.__init__` after `json.load` has produced `raw`:
`valid` starts `True`, `_multiple_models` normalizes the data and may lower
the provisional flag, and then the final assignment
`self.valid = self._validate_data()` replaces the provisional flag with the
validator's verdict (the provisional flag is discarded, not conjoined). -/
def mkDoc (schema : Json → Bool) (raw : Json) : Except Err Doc := do
  let (data', models, _provisionalValid) ← multipleModels raw
  let valid ← validateData data' schema models
  .ok ⟨data', models, decide (models.length > 1), valid⟩

/-- Number of entries of the canonical mapping (0 when the stored data is
not a dictionary). -/
def dataLen (doc : Doc) : Nat :=
  match doc.data with
  | .obj kvs => kvs.length
  | _ => 0

/-- Is `n` a key of the document's canonical mapping? -/
def docHasModel (doc : Doc) (n : String) : Bool :=
  match doc.data with
  | .obj kvs => hasKey kvs n
  | _ => false

/-! ## Shared accessor plumbing -/

/-- `self.data[model]`: string-index the canonical data. -/
def modelBody (data : Json) (m : String) : Except Err Json :=
  match data with
  | .obj kvs =>
      match jget kvs m with
      | some b => .ok b
      | none => .error (.keyError m)
  | .arr _ => .error (.typeError "list indices must be integers")
  | _ => .error (.typeError "object is not subscriptable")

/-- `j[k]` for a value expected to be a dictionary. -/
def objField (j : Json) (k : String) : Except Err Json :=
  match j with
  | .obj kvs =>
      match jget kvs k with
      | some v => .ok v
      | none => .error (.keyError k)
  | .arr _ => .error (.typeError "list indices must be integers")
  | _ => .error (.typeError "object is not subscriptable")

def asArr : Json → Except Err (List Json)
  | .arr xs => .ok xs
  | _ => .error (.typeError "not a list")

def asObj : Json → Except Err (List (String × Json))
  | .obj kvs => .ok kvs
  | _ => .error (.typeError "argument is not iterable")

/-- Insert into an ascending-sorted list (stable). -/
def insertAscBy {α : Type} (le : α → α → Bool) (x : α) : List α → List α
  | [] => [x]
  | y :: tl => if le x y then x :: y :: tl else y :: insertAscBy le x tl

/-- Ascending insertion sort. -/
def sortAscBy {α : Type} (le : α → α → Bool) : List α → List α
  | [] => []
  | x :: tl => insertAscBy le x (sortAscBy le tl)

/-- Keep the first occurrence of each element. -/
def dedupKeepFirst {α : Type} [DecidableEq α] : List α → List α
  | [] => []
  | x :: tl => x :: (dedupKeepFirst tl).filter (fun y => y ≠ x)

/-- Python `l = list(set(xs)); l.sort()`: the distinct elements in
ascending order. -/
def uniqueSorted {α : Type} [DecidableEq α] (le : α → α → Bool) (xs : List α) : List α :=
  sortAscBy le (dedupKeepFirst xs)

/-- Python string comparison: lexicographic on code points. -/
def charListLe : List Char → List Char → Bool
  | [], _ => true
  | _ :: _, [] => false
  | a :: as, b :: bs =>
      if a.toNat < b.toNat then true
      else if b.toNat < a.toNat then false
      else charListLe as bs

def strLe (a b : String) : Bool := charListLe a.toList b.toList

/-- `[d[field] for d in rows]` for a numeric field, as consumed by
`list(set(...)).sort()`: a missing key raises `KeyError`, a non-dictionary
row raises `TypeError`, and a non-numeric value stands in for the
`TypeError` the subsequent mixed-type sort would raise (for schema-valid
documents, the only ones that reach this code, these fields are numbers). -/
def rowNums (field : String) : List Json → Except Err (List ℚ)
  | [] => .ok []
  | r :: tl =>
      match r with
      | .obj kvs =>
          match jget kvs field with
          | some (.num q) => do
              let qs ← rowNums field tl
              .ok (q :: qs)
          | some _ => .error (.typeError "unorderable types")
          | none => .error (.keyError field)
      | _ => .error (.typeError "not subscriptable")

/-- `[d[field] for d in rows]` for a string-valued field (the lightcurve
`band` column), with the same error conventions as `rowNums`. -/
def rowStrs (field : String) : List Json → Except Err (List String)
  | [] => .ok []
  | r :: tl =>
      match r with
      | .obj kvs =>
          match jget kvs field with
          | some (.str s) => do
              let ss ← rowStrs field tl
              .ok (s :: ss)
          | some _ => .error (.typeError "unorderable types")
          | none => .error (.keyError field)
      | _ => .error (.typeError "not subscriptable")

/-- `df[df[field] == t]` row predicate: a row passes when its `field`
entry is the number `t`. -/
def rowNumEq (field : String) (t : ℚ) (r : Json) : Bool :=
  match r with
  | .obj kvs =>
      match jget kvs field with
      | some (.num q) => decide (q = t)
      | _ => false
  | _ => false

/-- `self.data[model]["data"]` as a list of rows. -/
def modelRows (doc : Doc) (m : String) (key : String) : Except Err (List Json) := do
  let body ← modelBody doc.data m
  let rowsJ ← objField body key
  asArr rowsJ

/-! ## Hydro1D accessors (`hesmapy/hydro/hydro1d.py`) -/

/-- `Hydro1D.get_unique_times` (hydro1d.py lines 90-112): empty list when
the document is invalid, else the sorted distinct `time` values of the
resolved model's rows. -/
def hGetUniqueTimes (doc : Doc) (sel : Option Selector) : Except Err (List ℚ) :=
  if doc.valid = false then .ok []
  else do
    let m ← getModel doc.models sel
    let rows ← modelRows doc m "data"
    let times ← rowNums "time" rows
    .ok (uniqueSorted (fun a b => decide (a ≤ b)) times)

/-- `Hydro1D.get_data` (hydro1d.py lines 114-140): `NotImplementedError` on
an invalid document, else the resolved model's rows, optionally filtered to
those whose `time` equals the given value. -/
def hGetData (doc : Doc) (time : Option ℚ) (sel : Option Selector) :
    Except Err (List Json) :=
  if doc.valid = false then
    .error (.notImplementedError "Getting data of invalid data not implemented")
  else do
    let m ← getModel doc.models sel
    let rows ← modelRows doc m "data"
    match time with
    | none => .ok rows
    | some t => .ok (rows.filter (rowNumEq "time" t))

/-- `self.data[model]["units"][f] if f in self.data[model]["units"] else
"(arb. units)"`: the stored unit when present, the sentinel otherwise. -/
def lookupUnit (ukvs : List (String × Json)) (f : String) : Json :=
  match jget ukvs f with
  | some v => v
  | none => Json.str "(arb. units)"

/-- `Hydro1D.get_units` (hydro1d.py lines 142-207): `NotImplementedError`
on an invalid document; otherwise each of the seven fields is looked up in
`self.data[model]["units"]`, falling back to `"(arb. units)"` when the
field is absent.  The conditional expressions evaluate
`self.data[model]["units"]` before testing membership, so a model body
without a `units` key raises `KeyError`. -/
def hGetUnits (doc : Doc) (sel : Option Selector) :
    Except Err (List (String × Json)) :=
  if doc.valid = false then
    .error (.notImplementedError "Getting units of invalid data not implemented")
  else do
    let m ← getModel doc.models sel
    let body ← modelBody doc.data m
    let unitsJ ← objField body "units"
    let ukvs ← asObj unitsJ
    .ok [("radius", lookupUnit ukvs "radius"), ("density", lookupUnit ukvs "density"),
         ("pressure", lookupUnit ukvs "pressure"),
         ("temperature", lookupUnit ukvs "temperature"),
         ("mass", lookupUnit ukvs "mass"), ("velocity", lookupUnit ukvs "velocity"),
         ("time", lookupUnit ukvs "time")]

/-! ## RTLightcurve accessors (`hesmapy/rt/lightcurves.py`) -/

/-- `RTLightcurve.get_unique_viewing_angles` (lightcurves.py lines 81-103). -/
def lcGetUniqueViewingAngles (doc : Doc) (sel : Option Selector) :
    Except Err (List ℚ) :=
  if doc.valid = false then .ok []
  else do
    let m ← getModel doc.models sel
    let rows ← modelRows doc m "data"
    let vas ← rowNums "viewing_angle" rows
    .ok (uniqueSorted (fun a b => decide (a ≤ b)) vas)

/-- `RTLightcurve.get_unique_bands` (lightcurves.py lines 105-125). -/
def lcGetUniqueBands (doc : Doc) (sel : Option Selector) :
    Except Err (List String) :=
  if doc.valid = false then .ok []
  else do
    let m ← getModel doc.models sel
    let rows ← modelRows doc m "data"
    let bands ← rowStrs "band" rows
    .ok (uniqueSorted strLe bands)

/-- `RTLightcurve.get_data` (lightcurves.py lines 21-49). -/
def lcGetData (doc : Doc) (va : Option ℚ) (sel : Option Selector) :
    Except Err (List Json) :=
  if doc.valid = false then
    .error (.notImplementedError "Getting data of invalid data not implemented")
  else do
    let m ← getModel doc.models sel
    let rows ← modelRows doc m "data"
    match va with
    | none => .ok rows
    | some t => .ok (rows.filter (rowNumEq "viewing_angle" t))

/-- `RTLightcurve.get_derived_data` (lightcurves.py lines 51-79). -/
def lcGetDerivedData (doc : Doc) (va : Option ℚ) (sel : Option Selector) :
    Except Err (List Json) :=
  if doc.valid = false then
    .error (.notImplementedError "Getting data of invalid data not implemented")
  else do
    let m ← getModel doc.models sel
    let rows ← modelRows doc m "derived_data"
    match va with
    | none => .ok rows
    | some t => .ok (rows.filter (rowNumEq "viewing_angle" t))

/-- The band loop of `RTLightcurve.get_units` (lightcurves.py lines
156-159): thread the in-place-mutated units dictionary `st` and the result
dictionary `res` through the bands.  A band missing from the units
dictionary is first written there with the sentinel, then read back. -/
def bandLoop (st res : List (String × Json)) :
    List String → (List (String × Json)) × (List (String × Json))
  | [] => (st, res)
  | b :: rest =>
      if hasKey st b then
        bandLoop st (setKey res b ((jget st b).getD .null)) rest
      else
        bandLoop (setKey st b (.str "(arb. units)"))
          (setKey res b ((jget (setKey st b (.str "(arb. units)")) b).getD .null)) rest

/-- `RTLightcurve.get_units` (lightcurves.py lines 127-161) without the
caller-facing exception wrapper: the result dictionary together with the
document as left after the in-place mutation of
`self.data[model]["units"]`.  The Python loop mutates the nested dictionary
object while re-reading it through `self.data[model]["units"]` each
iteration; threading the dictionary through `bandLoop` and writing it back
once is equivalent because the loop touches the document only through that
path. -/
def lcGetUnitsCore (doc : Doc) (sel : Option Selector) :
    Except Err ((List (String × Json)) × Doc) :=
  if doc.valid = false then
    .error (.notImplementedError "Getting units of invalid data not implemented")
  else
    match getModel doc.models sel with
    | .error e => .error e
    | .ok m =>
      match lcGetUniqueBands doc (some (.str m)) with
      | .error e => .error e
      | .ok bands =>
        match doc.data with
        | .obj dataKvs =>
            match jget dataKvs m with
            | none => .error (.keyError m)
            | some (.obj bodyKvs) =>
                match jget bodyKvs "units" with
                | none => .error (.keyError "units")
                | some (.obj ukvs) =>
                    let (stf, res) := bandLoop ukvs [("time", lookupUnit ukvs "time")] bands
                    .ok (res,
                      { doc with
                        data := .obj (setKey dataKvs m
                          (.obj (setKey bodyKvs "units" (.obj stf)))) })
                | some _ => .error (.typeError "argument is not iterable")
            | some (.arr _) => .error (.typeError "list indices must be integers")
            | some _ => .error (.typeError "object is not subscriptable")
        | .arr _ => .error (.typeError "list indices must be integers")
        | _ => .error (.typeError "object is not subscriptable")

/-- `RTLightcurve.get_units` as observed by a caller: the returned mapping
(or the raised exception) paired with the document state after the call
(unchanged when an exception is raised, since every raise happens before
the first mutation). -/
def lcGetUnits (doc : Doc) (sel : Option Selector) :
    (Except Err (List (String × Json))) × Doc :=
  match lcGetUnitsCore doc sel with
  | .ok (res, doc') => (.ok res, doc')
  | .error e => (.error e, doc)

/-! ## Abundance helper (`hesmapy/hydro/utils.py`) -/

/-- A `\w` character of Python's `re` module (ASCII inputs). -/
def isWordChar (c : Char) : Bool := c.isAlphanum || c = '_'

/-- Word boundary after the match: end of string or a non-word character. -/
def boundaryAfter : List Char → Bool
  | [] => true
  | c :: _ => !isWordChar c

/-- After `x[A-Z][a-z]` has matched, match `[0-9]\x7b0,3\x7d\b` with the
backtracking of Python's `re`: try three, two, one or zero digits, in each
case requiring a word boundary right after. -/
def digitsThenBoundary (l : List Char) : Bool :=
  boundaryAfter l ||
  (match l with
   | d1 :: r1 =>
       d1.isDigit &&
       (boundaryAfter r1 ||
        (match r1 with
         | d2 :: r2 =>
             d2.isDigit &&
             (boundaryAfter r2 ||
              (match r2 with
               | d3 :: r3 => d3.isDigit && boundaryAfter r3
               | [] => false))
         | [] => false))
   | [] => false)

/-- Match the pattern of utils.py line 61 at the current position:
a literal `x`, an upper-case letter, a lower-case letter, then
`[0-9]\x7b0,3\x7d\b`. -/
def matchCore : List Char → Bool
  | 'x' :: u :: l :: rest => u.isUpper && l.isLower && digitsThenBoundary rest
  | _ => false

/-- Scan for a match anywhere in the string (`re.search`), carrying the
previous character to decide the leading word boundary (`x` is a word
character, so the boundary holds exactly when the previous character is
absent or not a word character). -/
def searchAux : Option Char → List Char → Bool
  | _, [] => false
  | prev, c :: rest =>
      ((match prev with
        | none => true
        | some p => !isWordChar p) && matchCore (c :: rest))
      || searchAux (some c) rest

/-- `re.search` of the inline pattern of `get_abundance_data`
(utils.py line 61) against a column label, as `DataFrame.filter` applies it. -/
def searchAbundance (s : String) : Bool := searchAux none s.toList

/-- An ordered pandas `DataFrame`: column name paired with column values. -/
abbrev Table := List (String × List ℚ)

def colNames (t : Table) : List String := t.map Prod.fst

/-- `data[name]`: `KeyError` when the column is missing. -/
def getCol (t : Table) (n : String) : Except Err (List ℚ) :=
  match t.find? (fun c => c.1 = n) with
  | some c => .ok c.2
  | none => .error (.keyError n)

/-- `np.diff`. -/
def diffs : List ℚ → List ℚ
  | [] => []
  | [_] => []
  | a :: b :: tl => (b - a) :: diffs (b :: tl)

/-- utils.py line 71: `4 / 3 * np.pi * np.diff(np.insert(radius, 0, 0)) ** 3`
with `np.pi` abstracted as the parameter `pi`.  Note the cube applies to the
radius differences, not to the radii. -/
def cellVolumes (pi : ℚ) (radius : List ℚ) : List ℚ :=
  (diffs ((0 : ℚ) :: radius)).map (fun d => 4 / 3 * pi * d ^ 3)

/-- utils.py line 72: `masses = data["density"] * volumes` in the branch
without a `mass` column. -/
def noMassMasses (pi : ℚ) (radius density : List ℚ) : List ℚ :=
  List.zipWith (fun a b => a * b) density (cellVolumes pi radius)

/-- Modelled from the spec (section 4.4, abundance ranking step 2), for
comparison with `cellVolumes`: the volume of concentric shell `i` is
`4/3 * pi * (r_i ^ 3 - r_(i-1) ^ 3)` with `r_(-1) = 0`, the radii being the
outer shell boundaries. -/
def shellVolumesSpec (pi : ℚ) (radius : List ℚ) : List ℚ :=
  (diffs ((0 : ℚ) :: radius.map (fun r => r ^ 3))).map (fun d => 4 / 3 * pi * d)

/-- Modelled from the spec: per-row mass `density_i` times the spec's shell
volume, for comparison with `noMassMasses`. -/
def shellMassesSpec (pi : ℚ) (radius density : List ℚ) : List ℚ :=
  List.zipWith (fun a b => a * b) density (shellVolumesSpec pi radius)

/-- `abundances.mul(masses, axis=0).sum()` for one column. -/
def dotQ (a b : List ℚ) : ℚ := (List.zipWith (fun x y => x * y) a b).sum

/-- `total_mass.sort_values(ascending=False)`: descending by value.  The
source uses pandas' default unstable quicksort, whose order on ties is
unspecified; a stable insertion sort is used here (the claims' inputs are
tie-free). -/
def insertDesc (x : String × ℚ) : List (String × ℚ) → List (String × ℚ)
  | [] => [x]
  | y :: tl => if x.2 ≥ y.2 then x :: y :: tl else y :: insertDesc x tl

def sortDescBySnd : List (String × ℚ) → List (String × ℚ)
  | [] => []
  | x :: tl => insertDesc x (sortDescBySnd tl)

/-- `get_abundance_data` (utils.py lines 47-78): filter the columns whose
label matches the inline abundance pattern; if none match return the empty
table; otherwise rank the matching columns by total mass-weighted abundance
(mass taken from the `mass` column when present, else derived from `radius`
and `density`) and keep the top `maxAbundances` columns in ranked order. -/
def get_abundance_data (pi : ℚ) (data : Table) (maxAbundances : Nat) :
    Except Err Table :=
  let abundances := data.filter (fun c => searchAbundance c.1)
  if abundances.isEmpty then .ok abundances
  else do
    let masses ←
      if (colNames data).contains "mass" then getCol data "mass"
      else do
        let radius ← getCol data "radius"
        let density ← getCol data "density"
        .ok (noMassMasses pi radius density)
    let totals := abundances.map (fun c => (c.1, dotQ c.2 masses))
    let ranked := sortDescBySnd totals
    let top := (ranked.take maxAbundances).map Prod.fst
    .ok (top.filterMap (fun n => abundances.find? (fun c => c.1 = n)))

/-! ## Specification helpers and concrete fixtures -/

/-- Models and validity of a construction result, projected into a type
with decidable equality. -/
def docSummary (r : Except Err Doc) : Except Err (List String × Bool) :=
  match r with
  | .ok d => .ok (d.models, d.valid)
  | .error e => .error e

/-- A top-level array of single-key objects with the given keys and
bodies. -/
def mkItems (ks : List (String × Json)) : List Json :=
  ks.map (fun p => Json.obj [p])

/-- Closed form of the model names produced by the normalizer's second
loop on an array of single-key objects: the name at position `i` is the
item's key, suffixed with `_i` when that key is already among the names
inserted so far (`seen`). -/
def namesAux (i : Nat) (seen : List String) : List String → List String
  | [] => []
  | k :: rest =>
      (if seen.contains k then k ++ "_" ++ toString i else k) ::
        namesAux (i + 1)
          ((if seen.contains k then k ++ "_" ++ toString i else k) :: seen) rest

/-- Checks that every collision rename of the normalizer's second loop
produces a name that is itself fresh (the hypothesis of the amended
uniqueness claim). -/
def renamesFresh (i : Nat) (seen : List String) : List String → Bool
  | [] => true
  | k :: rest =>
      (!seen.contains k || !seen.contains (k ++ "_" ++ toString i)) &&
        renamesFresh (i + 1)
          ((if seen.contains k then k ++ "_" ++ toString i else k) :: seen) rest

/-- The hydro rows of `tests/test_hydro_utils.py` as a `DataFrame`:
columns in the dictionary order of the test rows, with
`xHe4 = [0.5, 0.1]`, `xC12 = [0.5, 0.9]` and `mass = [1, 2]`. -/
def hydroTestTable : Table :=
  [("radius", [1, 2]), ("density", [1, 2]), ("pressure", [1, 2]),
   ("temperature", [1, 2]), ("mass", [1, 2]), ("velocity", [1, 2]),
   ("time", [1, 2]), ("xHe4", [1/2, 1/10]), ("xC12", [1/2, 9/10])]

/-- A schema-valid hydro model body with no `units` object. -/
def noUnitsJson : Json :=
  .obj [("m", .obj [("name", .str "t"),
    ("data", .arr [
      .obj [("radius", .num 1), ("density", .num 1), ("time", .num 1)],
      .obj [("radius", .num 2), ("density", .num 2), ("time", .num 2)]])])]

/-- The document built from `noUnitsJson`: valid, one model, no units. -/
def noUnitsDoc : Doc :=
  ⟨.obj [("m", .obj [("name", .str "t"),
    ("data", .arr [
      .obj [("radius", .num 1), ("density", .num 1), ("time", .num 1)],
      .obj [("radius", .num 2), ("density", .num 2), ("time", .num 2)]])])],
   ["m"], false, true⟩

/-- A schema-valid hydro model body whose `units` object only names
`radius`. -/
def partialUnitsJson : Json :=
  .obj [("m", .obj [("name", .str "t"),
    ("units", .obj [("radius", .str "cm")]),
    ("data", .arr [
      .obj [("radius", .num 1), ("density", .num 1), ("time", .num 1)],
      .obj [("radius", .num 2), ("density", .num 2), ("time", .num 2)]])])]

/-- The document built from `partialUnitsJson`. -/
def partialUnitsDoc : Doc :=
  ⟨.obj [("m", .obj [("name", .str "t"),
    ("units", .obj [("radius", .str "cm")]),
    ("data", .arr [
      .obj [("radius", .num 1), ("density", .num 1), ("time", .num 1)],
      .obj [("radius", .num 2), ("density", .num 2), ("time", .num 2)]])])],
   ["m"], false, true⟩

/-- The spec's invalid-document example: content `(invalid: data)`. -/
def invalidJson : Json := .obj [("invalid", .str "data")]

/-- The document built from `invalidJson` against the hydro schema. -/
def invalidDoc : Doc :=
  ⟨.obj [("invalid", .str "data")], ["invalid"], false, false⟩

/-- Array input with a repeated key, for the C5 witness. -/
def repeatKeyItems : List (String × Json) := [("a", .null), ("a", .null)]

/-- The document built from `repeatKeyItems`. -/
def repeatKeyDoc : Doc :=
  ⟨.obj [("a", .null), ("a_1", .null)], ["a", "a_1"], true, false⟩

/-- Array input whose collision rename collides with an existing key:
keys `a_2`, `a`, `a` make position 2 rename to `a_2`, which is already the
key inserted at position 0. -/
def renameClashItems : List (String × Json) :=
  [("a_2", .null), ("a", .null), ("a", .null)]

/-- The document built from `renameClashItems`: three input elements, but
only two entries survive and the model list repeats `a_2`. -/
def renameClashDoc : Doc :=
  ⟨.obj [("a_2", .null), ("a", .null)], ["a_2", "a", "a_2"], true, false⟩

/-- Array input with a repeated key whose rename stays fresh, for the C6
witness. -/
def freshRenameItems : List (String × Json) := [("b", .null), ("b", .null)]

/-- The document built from `freshRenameItems`. -/
def freshRenameDoc : Doc :=
  ⟨.obj [("b", .null), ("b_1", .null)], ["b", "b_1"], true, false⟩

/-- A schema-valid lightcurve document whose `V` band has no stored unit,
for the C9 witness. -/
def lcJson : Json :=
  .obj [("test", .obj [
    ("name", .str "test"),
    ("units", .obj [("time", .str "s"), ("B", .str "mag")]),
    ("data", .arr [
      .obj [("time", .num 1), ("band", .str "B"), ("magnitude", .num 1),
            ("viewing_angle", .num 1)],
      .obj [("time", .num 2), ("band", .str "V"), ("magnitude", .num 2),
            ("viewing_angle", .num 2)]])])]

/-- The document built from `lcJson` against the lightcurve schema. -/
def lcDoc : Doc :=
  ⟨.obj [("test", .obj [
    ("name", .str "test"),
    ("units", .obj [("time", .str "s"), ("B", .str "mag")]),
    ("data", .arr [
      .obj [("time", .num 1), ("band", .str "B"), ("magnitude", .num 1),
            ("viewing_angle", .num 1)],
      .obj [("time", .num 2), ("band", .str "V"), ("magnitude", .num 2),
            ("viewing_angle", .num 2)]])])],
   ["test"], false, true⟩

/-! ## Theorems -/

/-- C1: the claim says that for a top-level value that is neither an object
nor an array of single-key objects, construction completes with an empty
model list and `valid = false`.  The code disagrees: the final assignment
`self.valid = self._validate_data()` discards the `False` set by
`_multiple_models` (the validator trivially returns `True` over an empty
model list), so a scalar, an empty array and an array headed by a non-object
all end with `valid = true`; and an array holding an object followed by a
non-object leaves `self.data` a list, so `_validate_data` raises
`TypeError` out of the constructor. -/
theorem c1_invalid_shape_flag :
    docSummary (mkDoc validateBase (Json.num 42)) = .ok ([], true) ∧
    docSummary (mkDoc validateBase (.arr [])) = .ok ([], true) ∧
    docSummary (mkDoc validateBase (.arr [.num 1])) = .ok ([], true) ∧
    docSummary (mkDoc validateBase (.arr [.obj [("a", .obj [])], .num 1])) =
      .error (.typeError "list indices must be integers") :=
  ⟨by rfl, by rfl, by rfl, by rfl⟩

/-- C2: the claim (and the repository's own test
`test_hydro_utils.test_get_abundance_data`) says that on rows with
`xHe4 = [0.5, 0.1]`, `xC12 = [0.5, 0.9]` and `mass = [1, 2]`, the top-1
abundance table is the `xC12` column with second value `0.9`.  The code
disagrees: the inline pattern of utils.py line 61 requires a lower-case
letter right after the upper-case one, so the label `xC12` does not match,
the filter keeps only `xHe4`, and the returned table is the `xHe4` column
(second value `0.1`), for every value of `np.pi`. -/
theorem c2_abundance_regex_drops_xC12 :
    (∀ pi : ℚ, get_abundance_data pi hydroTestTable 1 =
      .ok [("xHe4", [1/2, 1/10])]) ∧
    searchAbundance "xC12" = false ∧
    searchAbundance "xHe4" = true :=
  ⟨fun _ => by rfl, by rfl, by rfl⟩

/-- C3: the claim says the derived per-row mass is
`density_i * 4/3 * pi * (r_i ^ 3 - r_(i-1) ^ 3)`.  The code
(utils.py line 71) cubes the radius differences instead of differencing the
cubes: on `radius = [1, 2]`, `density = [1, 1]` (with `pi` instantiated to
`1`) it yields `[4/3, 4/3]` where the spec's shell-volume formula yields
`[4/3, 28/3]`. -/
theorem c3_volume_cubes_differences :
    noMassMasses 1 [1, 2] [1, 1] = [4/3, 4/3] ∧
    shellMassesSpec 1 [1, 2] [1, 1] = [4/3, 28/3] ∧
    noMassMasses 1 [1, 2] [1, 1] ≠ shellMassesSpec 1 [1, 2] [1, 1] :=
  ⟨by norm_num [noMassMasses, cellVolumes, diffs],
   by norm_num [shellMassesSpec, shellVolumesSpec, diffs],
   by norm_num [noMassMasses, cellVolumes, shellMassesSpec, shellVolumesSpec, diffs]⟩

/-- C4 counterexample: `noUnitsDoc` is built from a schema-valid hydro
document whose model body has no `units` object (`units` is not a required
schema field), and on it the units query raises `KeyError` instead of
returning the all-sentinel mapping claimed. -/
theorem c4_counterexample_no_units_keyerror :
    mkDoc validateHydro1d noUnitsJson = .ok noUnitsDoc ∧
    noUnitsDoc.valid = true ∧
    hGetUnits noUnitsDoc none = .error (.keyError "units") ∧
    isOkE (hGetUnits noUnitsDoc none) = false :=
  ⟨by rfl, by rfl, by rfl, by rfl⟩

/-- C4 (amended): for a valid document, a resolvable selector and a model
body that does have a `units` object, the hydro units query returns the
seven fields `radius, density, pressure, temperature, mass, velocity,
time`, each mapped to the stored unit when present and to the
arbitrary-units sentinel otherwise; when the model body has no `units`
object at all the call instead fails with `KeyError` (see the
counterexample). -/
theorem c4_units_defaults (doc : Doc) (sel : Option Selector) (m : String)
    (kvs body ukvs : List (String × Json))
    (hv : doc.valid = true)
    (hm : getModel doc.models sel = .ok m)
    (hd : doc.data = .obj kvs)
    (hb : jget kvs m = some (.obj body))
    (hu : jget body "units" = some (.obj ukvs)) :
    hGetUnits doc sel =
      .ok [("radius", lookupUnit ukvs "radius"), ("density", lookupUnit ukvs "density"),
           ("pressure", lookupUnit ukvs "pressure"),
           ("temperature", lookupUnit ukvs "temperature"),
           ("mass", lookupUnit ukvs "mass"), ("velocity", lookupUnit ukvs "velocity"),
           ("time", lookupUnit ukvs "time")] := by
  simp only [hGetUnits, hv, Bool.true_eq_false, if_false, hm, hd, modelBody, objField,
    asObj, bind]
  simp [Except.bind, hb, hu]

/-- C4 witness: on the concrete valid document whose `units` object names
only `radius`, the query returns the stored `cm` for `radius` and the
sentinel for the six other fields. -/
theorem c4_units_defaults_witness :
    hGetUnits partialUnitsDoc none =
      .ok [("radius", .str "cm"), ("density", .str "(arb. units)"),
           ("pressure", .str "(arb. units)"), ("temperature", .str "(arb. units)"),
           ("mass", .str "(arb. units)"), ("velocity", .str "(arb. units)"),
           ("time", .str "(arb. units)")] := by
  have h := c4_units_defaults partialUnitsDoc none "m"
    [("m", .obj [("name", .str "t"),
      ("units", .obj [("radius", .str "cm")]),
      ("data", .arr [
        .obj [("radius", .num 1), ("density", .num 1), ("time", .num 1)],
        .obj [("radius", .num 2), ("density", .num 2), ("time", .num 2)]])])]
    [("name", .str "t"), ("units", .obj [("radius", .str "cm")]),
     ("data", .arr [
       .obj [("radius", .num 1), ("density", .num 1), ("time", .num 1)],
       .obj [("radius", .num 2), ("density", .num 2), ("time", .num 2)]])]
    [("radius", .str "cm")] rfl rfl rfl rfl rfl
  exact h

/-- C7: on any document whose validity flag is false, every `unique_*`
query returns an empty list without failing, and every data-returning
query (`get_data`, `get_derived_data`, `get_units`) raises
`NotImplementedError` instead of returning partial data. -/
theorem c7_invalid_queries (doc : Doc) (h : doc.valid = false) :
    (∀ sel, hGetUniqueTimes doc sel = .ok []) ∧
    (∀ sel, lcGetUniqueViewingAngles doc sel = .ok []) ∧
    (∀ sel, lcGetUniqueBands doc sel = .ok []) ∧
    (∀ t sel, hGetData doc t sel =
      .error (.notImplementedError "Getting data of invalid data not implemented")) ∧
    (∀ va sel, lcGetData doc va sel =
      .error (.notImplementedError "Getting data of invalid data not implemented")) ∧
    (∀ va sel, lcGetDerivedData doc va sel =
      .error (.notImplementedError "Getting data of invalid data not implemented")) ∧
    (∀ sel, hGetUnits doc sel =
      .error (.notImplementedError "Getting units of invalid data not implemented")) ∧
    (∀ sel, (lcGetUnits doc sel).1 =
      .error (.notImplementedError "Getting units of invalid data not implemented")) := by
  refine ⟨fun sel => ?_, fun sel => ?_, fun sel => ?_, fun t sel => ?_,
    fun va sel => ?_, fun va sel => ?_, fun sel => ?_, fun sel => ?_⟩ <;>
    simp [hGetUniqueTimes, lcGetUniqueViewingAngles, lcGetUniqueBands, hGetData,
      lcGetData, lcGetDerivedData, hGetUnits, lcGetUnits, lcGetUnitsCore, h]

/-- C7 witness: the document built from the spec's example content
`(invalid: data)` has `valid = false` (the body fails the hydro schema),
its `unique_times` query returns the empty list and its data queries raise. -/
theorem c7_invalid_queries_witness :
    mkDoc validateHydro1d invalidJson = .ok invalidDoc ∧
    hGetUniqueTimes invalidDoc none = .ok [] ∧
    lcGetUniqueBands invalidDoc none = .ok [] ∧
    hGetData invalidDoc none none =
      .error (.notImplementedError "Getting data of invalid data not implemented") ∧
    hGetUnits invalidDoc none =
      .error (.notImplementedError "Getting units of invalid data not implemented") ∧
    (lcGetUnits invalidDoc none).1 =
      .error (.notImplementedError "Getting units of invalid data not implemented") :=
  ⟨by rfl, (c7_invalid_queries invalidDoc rfl).1 none,
   (c7_invalid_queries invalidDoc rfl).2.2.1 none,
   (c7_invalid_queries invalidDoc rfl).2.2.2.1 none none,
   (c7_invalid_queries invalidDoc rfl).2.2.2.2.2.2.1 none,
   (c7_invalid_queries invalidDoc rfl).2.2.2.2.2.2.2 none⟩

/-- C8: on a non-empty model list, an omitted selector resolves to the
first model; an integer selector at least `len(models)` fails the range
assertion, and one in `[0, len)` returns `models[selector]`; a string
selector returns itself when known and fails the name assertion otherwise;
a float selector raises `TypeError`; and `resolve_model(0)` agrees with
resolving the first model's name. -/
theorem c8_resolve_model (ms : List String) (h : ms ≠ []) :
    getModel ms none = .ok (ms.headD "") ∧
    (∀ i : ℤ, (ms.length : ℤ) ≤ i →
      getModel ms (some (.int i)) = .error (.assertionError "Invalid model index")) ∧
    (∀ i : ℤ, 0 ≤ i → i < (ms.length : ℤ) →
      getModel ms (some (.int i)) = .ok (ms.getD i.toNat "")) ∧
    (∀ s : String, s ∈ ms → getModel ms (some (.str s)) = .ok s) ∧
    (∀ s : String, s ∉ ms →
      getModel ms (some (.str s)) = .error (.assertionError "Invalid model name")) ∧
    (∀ q : ℚ, getModel ms (some (.float q)) = .error (.typeError "Invalid model type")) ∧
    getModel ms (some (.int 0)) = getModel ms (some (.str (ms.headD ""))) := by
  obtain ⟨a, tl, rfl⟩ : ∃ a tl, ms = a :: tl := by
    cases ms with
    | nil => exact absurd rfl h
    | cons a tl => exact ⟨a, tl, rfl⟩
  refine ⟨rfl, fun i hi => ?_, fun i h0 hlen => ?_, fun s hs => ?_, fun s hs => ?_,
    fun q => rfl, ?_⟩
  · simp only [getModel, if_pos hi]
  · rw [getModel, if_neg (by omega), pyIndex, if_pos h0, if_pos hlen]
  · simp only [getModel]
    rw [if_pos (List.elem_iff.mpr hs)]
  · simp only [getModel]
    rw [if_neg (by simpa [List.elem_iff] using hs)]
  · have h1 : getModel (a :: tl) (some (.int 0)) = .ok a := by
      have hn : ¬ (((a :: tl).length : ℤ) ≤ 0) := by simp
      rw [getModel, if_neg hn, pyIndex, if_pos le_rfl, if_pos (by omega : (0 : ℤ) < ((a :: tl).length : ℤ))]
      rfl
    have h2 : getModel (a :: tl) (some (.str ((a :: tl).headD ""))) = .ok a := by
      simp [getModel, List.elem_iff]
    rw [h1, h2]

/-- C8 witness: the conjuncts instantiated on the model list `[a, b]` with
selectors `5`, `1`, `b`, `c` and the float `6/5`. -/
theorem c8_resolve_model_witness :
    getModel ["a", "b"] none = .ok "a" ∧
    getModel ["a", "b"] (some (.int 5)) = .error (.assertionError "Invalid model index") ∧
    getModel ["a", "b"] (some (.int 1)) = .ok "b" ∧
    getModel ["a", "b"] (some (.str "b")) = .ok "b" ∧
    getModel ["a", "b"] (some (.str "c")) = .error (.assertionError "Invalid model name") ∧
    getModel ["a", "b"] (some (.float (6/5))) = .error (.typeError "Invalid model type") ∧
    getModel ["a", "b"] (some (.int 0)) = getModel ["a", "b"] (some (.str "a")) := by
  have h := c8_resolve_model ["a", "b"] (by simp)
  exact ⟨h.1, h.2.1 5 (by norm_num), h.2.2.1 1 (by norm_num) (by norm_num),
    h.2.2.2.1 "b" (by simp), h.2.2.2.2.1 "c" (by simp),
    h.2.2.2.2.2.1 (6/5), h.2.2.2.2.2.2⟩

/-- C10: a negative integer selector `s` with `-len(models) ≤ s ≤ -1`
passes the range assertion (which only rejects selectors at least
`len(models)`) and resolves, by Python's negative indexing, to the model at
position `len(models) + s`; in particular `-1` resolves to the last model. -/
theorem c10_negative_selector (ms : List String) (s : ℤ)
    (h1 : ms ≠ []) (h2 : -(ms.length : ℤ) ≤ s) (h3 : s ≤ -1) :
    getModel ms (some (.int s)) = .ok (ms.getD ((ms.length : ℤ) + s).toNat "") ∧
    getModel ms (some (.int (-1))) = .ok (ms.getD (ms.length - 1) "") := by
  have hlen : 1 ≤ ms.length := by
    cases ms with
    | nil => exact absurd rfl h1
    | cons a tl => simp
  constructor
  · have ha : ¬ ((ms.length : ℤ) ≤ s) := by omega
    have hb : ¬ ((0 : ℤ) ≤ s) := by omega
    rw [getModel, if_neg ha, pyIndex, if_neg hb, if_pos h2]
  · have ha : ¬ ((ms.length : ℤ) ≤ (-1 : ℤ)) := by omega
    have hb : ¬ ((0 : ℤ) ≤ (-1 : ℤ)) := by norm_num
    have hc : -(ms.length : ℤ) ≤ (-1 : ℤ) := by omega
    rw [getModel, if_neg ha, pyIndex, if_neg hb, if_pos hc]
    have he : ((ms.length : ℤ) + (-1 : ℤ)).toNat = ms.length - 1 := by omega
    rw [he]

/-- C10 witness: on the model list `[a, b]`, the selector `-1` resolves to
the last model `b` without failing. -/
theorem c10_negative_selector_witness :
    getModel ["a", "b"] (some (.int (-1))) = .ok "b" := by
  have h := (c10_negative_selector ["a", "b"] (-1) (by simp) (by norm_num)
    (by norm_num)).1
  simpa using h

/-! ### Association-list lemmas -/

theorem jget_setKey_self (kvs : List (String × Json)) (k : String) (v : Json) :
    jget (setKey kvs k v) k = some v := by
  induction kvs with
  | nil => simp [setKey, jget]
  | cons p tl ih =>
      obtain ⟨k', v'⟩ := p
      by_cases h : k' = k
      · simp [setKey, h, jget]
      · simp [setKey, h, jget, ih]

theorem jget_setKey_ne (kvs : List (String × Json)) (k : String) (v : Json)
    (k' : String) (h : k ≠ k') :
    jget (setKey kvs k v) k' = jget kvs k' := by
  induction kvs with
  | nil => simp [setKey, jget, h]
  | cons p tl ih =>
      obtain ⟨k1, v1⟩ := p
      by_cases hk : k1 = k
      · subst hk
        simp [setKey, jget, h, Ne.symm h]
      · simp [setKey, hk, jget, ih]

theorem hasKey_setKey_iff (kvs : List (String × Json)) (k : String) (v : Json)
    (x : String) :
    hasKey (setKey kvs k v) x = true ↔ (hasKey kvs x = true ∨ x = k) := by
  by_cases hx : x = k
  · subst hx
    simp [hasKey, jget_setKey_self]
  · rw [hasKey, jget_setKey_ne kvs k v x (Ne.symm hx)]
    simp [hasKey, hx]

theorem setKey_length_fresh (kvs : List (String × Json)) (k : String) (v : Json)
    (h : hasKey kvs k = false) :
    (setKey kvs k v).length = kvs.length + 1 := by
  induction kvs with
  | nil => simp [setKey]
  | cons p tl ih =>
      obtain ⟨k1, v1⟩ := p
      rw [hasKey, jget] at h
      by_cases hk : k1 = k
      · simp [hk] at h
      · rw [if_neg hk] at h
        simp [setKey, hk, ih h]

/-! ### Normalizer lemmas -/

theorem collectKeys_mkItems (ks : List (String × Json)) :
    collectKeys (mkItems ks) = .ok (ks.map Prod.fst, true) := by
  induction ks with
  | nil => rfl
  | cons p tl ih =>
      obtain ⟨k, v⟩ := p
      have ih' : collectKeys (List.map (fun p => Json.obj [p]) tl) =
          Except.ok (List.map Prod.fst tl, true) := ih
      simp [mkItems, collectKeys, ih', bind, Except.bind]

theorem namesAux_length (ks : List String) :
    ∀ (i : Nat) (seen : List String), (namesAux i seen ks).length = ks.length := by
  induction ks with
  | nil => intro i seen; rfl
  | cons k tl ih => intro i seen; simp [namesAux, ih]

theorem buildModels_mkItems (ks : List (String × Json)) :
    ∀ (i : Nat) (acc : List (String × Json)) (seen : List String),
      (∀ x, hasKey acc x = seen.contains x) →
      ∃ d, buildModels i acc (mkItems ks) =
        .ok (namesAux i seen (ks.map Prod.fst), d) := by
  induction ks with
  | nil => intro i acc seen _; exact ⟨acc, rfl⟩
  | cons p tl ih =>
      intro i acc seen hinv
      obtain ⟨k, v⟩ := p
      have hinv' : ∀ x,
          hasKey (setKey acc (if seen.contains k then k ++ "_" ++ toString i else k) v) x =
            ((if seen.contains k then k ++ "_" ++ toString i else k) :: seen).contains x := by
        intro x
        by_cases hx : x = (if seen.contains k then k ++ "_" ++ toString i else k)
        · subst hx
          simp [hasKey, jget_setKey_self]
        · rw [hasKey,
            jget_setKey_ne acc (if seen.contains k then k ++ "_" ++ toString i else k) v x
              (Ne.symm hx)]
          rw [← hasKey, hinv x]
          show seen.contains x =
            (x == (if seen.contains k then k ++ "_" ++ toString i else k) ||
              seen.contains x)
          rw [beq_false_of_ne hx, Bool.false_or]
      obtain ⟨d, hd⟩ :=
        ih (i + 1) (setKey acc (if seen.contains k then k ++ "_" ++ toString i else k) v)
          ((if seen.contains k then k ++ "_" ++ toString i else k) :: seen) hinv'
      refine ⟨d, ?_⟩
      simp only [mkItems, List.map_cons]
      simp only [buildModels, firstKey, firstVal, bind, Except.bind, hinv k]
      rw [show mkItems tl = List.map (fun p => Json.obj [p]) tl from rfl] at hd
      rw [hd]
      simp [namesAux]

theorem multipleModels_mkItems (ks : List (String × Json)) :
    ∃ d, multipleModels (.arr (mkItems ks)) =
      .ok (.obj d, namesAux 0 [] (ks.map Prod.fst), true) ∧
      buildModels 0 [] (mkItems ks) = .ok (namesAux 0 [] (ks.map Prod.fst), d) := by
  obtain ⟨d, hd⟩ := buildModels_mkItems ks 0 [] [] (fun x => rfl)
  refine ⟨d, ?_, hd⟩
  simp [multipleModels, collectKeys_mkItems, bind, Except.bind, hd]

theorem mkDoc_arr_spec (schema : Json → Bool) (ks : List (String × Json)) (doc : Doc)
    (h : mkDoc schema (.arr (mkItems ks)) = .ok doc) :
    doc.models = namesAux 0 [] (ks.map Prod.fst) ∧
    doc.multiModel = decide (1 < ks.length) ∧
    ∃ d, doc.data = .obj d ∧
      buildModels 0 [] (mkItems ks) = .ok (namesAux 0 [] (ks.map Prod.fst), d) := by
  obtain ⟨d, hmm, hbm⟩ := multipleModels_mkItems ks
  rw [mkDoc, hmm] at h
  simp only [bind, Except.bind] at h
  cases hv : validateData (.obj d) schema (namesAux 0 [] (ks.map Prod.fst)) with
  | ok b =>
      rw [hv] at h
      simp only [Except.ok.injEq] at h
      subst h
      refine ⟨rfl, ?_, d, rfl, hbm⟩
      simp [namesAux_length]
  | error e =>
      rw [hv] at h
      exact absurd h (by simp)

theorem namesAux_of_nodup (ks : List String) :
    ∀ (i : Nat) (seen : List String), ks.Nodup →
      (∀ k ∈ ks, seen.contains k = false) →
      namesAux i seen ks = ks := by
  induction ks with
  | nil => intro i seen _ _; rfl
  | cons k tl ih =>
      intro i seen hnd hfr
      have hk : seen.contains k = false := hfr k (by simp)
      rw [namesAux, if_neg (by rw [hk]; exact Bool.false_ne_true)]
      congr 1
      refine ih (i + 1) (k :: seen) (List.Nodup.of_cons hnd) ?_
      intro k' hk'
      show (k' == k || seen.contains k') = false
      have hne : k' ≠ k := by
        intro hkk
        subst hkk
        exact (List.nodup_cons.mp hnd).1 hk'
      rw [beq_false_of_ne hne, Bool.false_or]
      exact hfr k' (List.mem_cons_of_mem k hk')

theorem namesAux_getD (ks : List String) :
    ∀ (i : Nat) (seen : List String) (j : Nat), j < ks.length →
      (namesAux i seen ks).getD j "" =
        (if (seen.contains (ks.getD j "") ||
              ((namesAux i seen ks).take j).contains (ks.getD j "")) then
          ks.getD j "" ++ "_" ++ toString (i + j)
         else ks.getD j "") := by
  induction ks with
  | nil => intro i seen j hj; simp at hj
  | cons k tl ih =>
      intro i seen j hj
      match j with
      | 0 =>
          simp only [namesAux, List.getD_cons_zero, List.take_zero, List.contains,
            List.elem_nil, Bool.or_false, Nat.add_zero]
      | j + 1 =>
          have hj' : j < tl.length := by simpa using hj
          have := ih (i + 1)
            ((if seen.contains k then k ++ "_" ++ toString i else k) :: seen) j hj'
          simp only [namesAux, List.getD_cons_succ, List.take_succ_cons]
          rw [this]
          have harith : i + 1 + j = i + (j + 1) := by omega
          rw [harith]
          have hcond :
              (((if seen.contains k then k ++ "_" ++ toString i else k) :: seen).contains
                  (tl.getD j "") ||
                (List.take j
                  (namesAux (i + 1)
                    ((if seen.contains k then k ++ "_" ++ toString i else k) :: seen)
                    tl)).contains (tl.getD j "")) =
              (seen.contains (tl.getD j "") ||
                ((if seen.contains k then k ++ "_" ++ toString i else k) ::
                  List.take j
                    (namesAux (i + 1)
                      ((if seen.contains k then k ++ "_" ++ toString i else k) :: seen)
                      tl)).contains (tl.getD j "")) := by
            show ((tl.getD j "" ==
                (if seen.contains k then k ++ "_" ++ toString i else k)) ||
                  seen.contains (tl.getD j "") ||
                (List.take j
                  (namesAux (i + 1)
                    ((if seen.contains k then k ++ "_" ++ toString i else k) :: seen)
                    tl)).contains (tl.getD j "")) =
              (seen.contains (tl.getD j "") ||
                ((tl.getD j "" ==
                  (if seen.contains k then k ++ "_" ++ toString i else k)) ||
                  (List.take j
                    (namesAux (i + 1)
                      ((if seen.contains k then k ++ "_" ++ toString i else k) :: seen)
                      tl)).contains (tl.getD j "")))
            cases tl.getD j "" ==
                (if seen.contains k then k ++ "_" ++ toString i else k) <;>
              cases seen.contains (tl.getD j "") <;>
              simp
          rw [hcond]

theorem namesAux_fresh (ks : List String) :
    ∀ (i : Nat) (seen : List String), renamesFresh i seen ks = true →
      (namesAux i seen ks).Nodup ∧
        ∀ n ∈ namesAux i seen ks, seen.contains n = false := by
  induction ks with
  | nil => intro i seen _; simp [namesAux]
  | cons k tl ih =>
      intro i seen hf
      rw [renamesFresh, Bool.and_eq_true] at hf
      obtain ⟨hf1, hf2⟩ := hf
      have hname : seen.contains (if seen.contains k then k ++ "_" ++ toString i else k)
          = false := by
        by_cases hc : seen.contains k = true
        · rw [if_pos hc]
          rw [hc] at hf1
          simpa using hf1
        · rw [if_neg hc]
          exact Bool.not_eq_true _ ▸ (Bool.eq_false_iff.mpr hc)
      obtain ⟨hnd, hall⟩ :=
        ih (i + 1) ((if seen.contains k then k ++ "_" ++ toString i else k) :: seen) hf2
      have hcons : ∀ n ∈ namesAux (i + 1)
          ((if seen.contains k then k ++ "_" ++ toString i else k) :: seen) tl,
          (n ≠ (if seen.contains k then k ++ "_" ++ toString i else k)) ∧
            seen.contains n = false := by
        intro n hn
        have := hall n hn
        rw [show ((if seen.contains k then k ++ "_" ++ toString i else k) :: seen).contains n
            = (n == (if seen.contains k then k ++ "_" ++ toString i else k) ||
                seen.contains n) from rfl] at this
        rw [Bool.or_eq_false_iff] at this
        exact ⟨by simpa using this.1, this.2⟩
      constructor
      · rw [namesAux, List.nodup_cons]
        exact ⟨fun hmem => (hcons _ hmem).1 rfl, hnd⟩
      · intro n hn
        rw [namesAux, List.mem_cons] at hn
        rcases hn with hn | hn
        · rw [hn]; exact hname
        · exact (hcons n hn).2

theorem buildModels_stored (ks : List (String × Json)) :
    ∀ (i : Nat) (acc : List (String × Json)) (ms : List String)
      (d : List (String × Json)),
      buildModels i acc (mkItems ks) = .ok (ms, d) →
      (∀ x, hasKey acc x = true → hasKey d x = true) ∧
        (∀ n ∈ ms, hasKey d n = true) := by
  induction ks with
  | nil =>
      intro i acc ms d h
      rw [mkItems, List.map_nil, buildModels] at h
      simp only [Except.ok.injEq, Prod.mk.injEq] at h
      obtain ⟨hms, hd⟩ := h
      subst hms
      subst hd
      exact ⟨fun x hx => hx, by simp⟩
  | cons p tl ih =>
      intro i acc ms d h
      obtain ⟨k, v⟩ := p
      rw [mkItems, List.map_cons] at h
      rw [buildModels] at h
      simp only [firstKey, firstVal, bind, Except.bind] at h
      cases hb : buildModels (i + 1)
          (setKey acc (if hasKey acc k then k ++ "_" ++ toString i else k) v)
          (List.map (fun p => Json.obj [p]) tl) with
      | error e => rw [hb] at h; exact absurd h (by simp)
      | ok r =>
          rw [hb] at h
          obtain ⟨ms', d'⟩ := r
          simp only [Except.ok.injEq, Prod.mk.injEq] at h
          obtain ⟨hms, hd⟩ := h
          subst hms
          subst hd
          have hb' : buildModels (i + 1)
              (setKey acc (if hasKey acc k then k ++ "_" ++ toString i else k) v)
              (mkItems tl) = .ok (ms', d') := hb
          obtain ⟨hmono, hstored⟩ := ih (i + 1) _ ms' d' hb'
          refine ⟨?_, ?_⟩
          · intro x hx
            refine hmono x ?_
            exact (hasKey_setKey_iff acc _ v x).mpr (Or.inl hx)
          · intro n hn
            rw [List.mem_cons] at hn
            rcases hn with hn | hn
            · subst hn
              refine hmono _ ?_
              exact (hasKey_setKey_iff acc _ v _).mpr (Or.inr rfl)
            · exact hstored n hn

theorem buildModels_length_fresh (ks : List (String × Json)) :
    ∀ (i : Nat) (acc : List (String × Json)) (seen : List String),
      (∀ x, hasKey acc x = seen.contains x) →
      renamesFresh i seen (ks.map Prod.fst) = true →
      ∀ (ms : List String) (d : List (String × Json)),
        buildModels i acc (mkItems ks) = .ok (ms, d) →
        d.length = acc.length + ks.length := by
  induction ks with
  | nil =>
      intro i acc seen _ _ ms d h
      rw [mkItems, List.map_nil, buildModels] at h
      simp only [Except.ok.injEq, Prod.mk.injEq] at h
      rw [← h.2]
      simp
  | cons p tl ih =>
      intro i acc seen hinv hf ms d h
      obtain ⟨k, v⟩ := p
      rw [List.map_cons, renamesFresh, Bool.and_eq_true] at hf
      obtain ⟨hf1, hf2⟩ := hf
      have hname : seen.contains (if seen.contains k then k ++ "_" ++ toString i else k)
          = false := by
        by_cases hc : seen.contains k = true
        · rw [if_pos hc]
          rw [hc] at hf1
          simpa using hf1
        · rw [if_neg hc]
          exact Bool.eq_false_iff.mpr hc
      have hfreshacc : hasKey acc (if seen.contains k then k ++ "_" ++ toString i else k)
          = false := by rw [hinv]; exact hname
      have hinv' : ∀ x,
          hasKey (setKey acc (if seen.contains k then k ++ "_" ++ toString i else k) v) x =
            ((if seen.contains k then k ++ "_" ++ toString i else k) :: seen).contains x := by
        intro x
        by_cases hx : x = (if seen.contains k then k ++ "_" ++ toString i else k)
        · subst hx
          simp [hasKey, jget_setKey_self]
        · rw [hasKey,
            jget_setKey_ne acc (if seen.contains k then k ++ "_" ++ toString i else k) v x
              (Ne.symm hx)]
          rw [← hasKey, hinv x]
          show seen.contains x =
            (x == (if seen.contains k then k ++ "_" ++ toString i else k) ||
              seen.contains x)
          rw [beq_false_of_ne hx, Bool.false_or]
      rw [mkItems, List.map_cons, buildModels] at h
      simp only [firstKey, firstVal, bind, Except.bind] at h
      rw [hinv k] at h
      cases hb : buildModels (i + 1)
          (setKey acc (if seen.contains k then k ++ "_" ++ toString i else k) v)
          (List.map (fun p => Json.obj [p]) tl) with
      | error e => rw [hb] at h; exact absurd h (by simp)
      | ok r =>
          rw [hb] at h
          obtain ⟨ms', d'⟩ := r
          simp only [Except.ok.injEq, Prod.mk.injEq] at h
          obtain ⟨hms, hd⟩ := h
          have hb' : buildModels (i + 1)
              (setKey acc (if seen.contains k then k ++ "_" ++ toString i else k) v)
              (mkItems tl) = .ok (ms', d') := hb
          have hlen := ih (i + 1) _ _ hinv' hf2 ms' d' hb'
          rw [← hd, hlen, setKey_length_fresh acc _ v hfreshacc]
          simp only [List.length_cons]
          omega

/-- C5: for a top-level array of single-key objects, the constructed
document has one model name per input element, `multi_model` is exactly
"more than one element", distinct input keys are kept verbatim in input
order, the occurrence at position `j` whose key collides with an
already-inserted name is listed as `key_j`, and every listed name is a key
of the canonical mapping. -/
theorem c5_array_of_objects (schema : Json → Bool) (ks : List (String × Json))
    (doc : Doc) (h : mkDoc schema (.arr (mkItems ks)) = .ok doc) :
    doc.models.length = ks.length ∧
    doc.multiModel = decide (1 < ks.length) ∧
    ((ks.map Prod.fst).Nodup → doc.models = ks.map Prod.fst) ∧
    (∀ j, j < ks.length →
      doc.models.getD j "" =
        (if (doc.models.take j).contains ((ks.map Prod.fst).getD j "") then
          (ks.map Prod.fst).getD j "" ++ "_" ++ toString j
         else (ks.map Prod.fst).getD j "")) ∧
    (∀ n ∈ doc.models, docHasModel doc n = true) := by
  obtain ⟨hmodels, hmulti, d, hdata, hbm⟩ := mkDoc_arr_spec schema ks doc h
  refine ⟨?_, hmulti, ?_, ?_, ?_⟩
  · rw [hmodels, namesAux_length, List.length_map]
  · intro hnd
    rw [hmodels, namesAux_of_nodup (ks.map Prod.fst) 0 [] hnd (by simp [List.contains])]
  · intro j hj
    have hj' : j < (ks.map Prod.fst).length := by simpa using hj
    have := namesAux_getD (ks.map Prod.fst) 0 [] j hj'
    rw [hmodels]
    rw [this]
    simp only [List.contains, List.elem_nil, Bool.false_or, Nat.zero_add]
  · intro n hn
    rw [docHasModel, hdata]
    have hbm' : buildModels 0 [] (mkItems ks) = .ok (doc.models, d) := by
      rw [hmodels]; exact hbm
    exact (buildModels_stored ks 0 [] doc.models d hbm').2 n hn

/-- C5 witness: the array with repeated key `a` yields models `a` and
`a_1`, `multi_model = true`, and the characterizations instantiated at
positions 0 and 1. -/
theorem c5_array_of_objects_witness :
    repeatKeyDoc.models.length = 2 ∧
    repeatKeyDoc.multiModel = true ∧
    repeatKeyDoc.models.getD 0 "" = "a" ∧
    repeatKeyDoc.models.getD 1 "" = "a" ++ "_" ++ toString 1 ∧
    docHasModel repeatKeyDoc "a_1" = true := by
  have h := c5_array_of_objects validateBase repeatKeyItems repeatKeyDoc (by rfl)
  refine ⟨h.1, (h.2.1).trans (by rfl), ?_, ?_, ?_⟩
  · exact (h.2.2.2.1 0 (by decide)).trans (by rfl)
  · exact (h.2.2.2.1 1 (by decide)).trans (by rfl)
  · exact h.2.2.2.2 "a_1" (by decide)

/-- C6 counterexample: on the input keys `a_2, a, a`, position 2 collides
and is renamed to `a_2`, which is already the key stored at position 0;
the model list repeats `a_2` and the canonical mapping has two entries for
three input elements, refuting pairwise distinctness and
one-entry-per-element. -/
theorem c6_counterexample_rename_clash :
    mkDoc validateBase (.arr (mkItems renameClashItems)) = .ok renameClashDoc ∧
    ¬ renameClashDoc.models.Nodup ∧
    renameClashDoc.models.length = 3 ∧
    dataLen renameClashDoc = 2 :=
  ⟨by rfl, by decide, by rfl, by rfl⟩

/-- C6 (amended): for a top-level array of single-key objects, if every
collision rename produces a name that is not itself already inserted
(checked by `renamesFresh`), then the model names are pairwise distinct and
the canonical mapping has exactly one entry per input element.  Without
that proviso a rename can collide with an existing key and overwrite it
(see the counterexample). -/
theorem c6_unique_models (schema : Json → Bool) (ks : List (String × Json))
    (doc : Doc) (h : mkDoc schema (.arr (mkItems ks)) = .ok doc)
    (hf : renamesFresh 0 [] (ks.map Prod.fst) = true) :
    doc.models.Nodup ∧ dataLen doc = ks.length := by
  obtain ⟨hmodels, _, d, hdata, hbm⟩ := mkDoc_arr_spec schema ks doc h
  constructor
  · rw [hmodels]
    exact (namesAux_fresh (ks.map Prod.fst) 0 [] hf).1
  · rw [dataLen, hdata]
    have := buildModels_length_fresh ks 0 [] [] (fun x => rfl) hf
      (namesAux 0 [] (ks.map Prod.fst)) d hbm
    simpa using this

/-- C6 witness: the rename on keys `b, b` stays fresh, and the resulting
models `b, b_1` are distinct with a two-entry mapping. -/
theorem c6_unique_models_witness :
    renamesFresh 0 [] (freshRenameItems.map Prod.fst) = true ∧
    freshRenameDoc.models.Nodup ∧ dataLen freshRenameDoc = 2 := by
  have h := c6_unique_models validateBase freshRenameItems freshRenameDoc
    (by rfl) (by rfl)
  exact ⟨by rfl, h.1, h.2⟩

/-! ### Model-resolution and band-loop lemmas -/

theorem getD_mem (l : List String) : ∀ n, n < l.length → l.getD n "" ∈ l := by
  induction l with
  | nil => intro n h; simp at h
  | cons a tl ih =>
      intro n h
      match n with
      | 0 => simp
      | n + 1 =>
          have hn : n < tl.length := by simpa using h
          exact List.mem_cons_of_mem a (ih n hn)

theorem getModel_contains (ms : List String) (sel : Option Selector) (m : String)
    (h : getModel ms sel = .ok m) : ms.contains m = true := by
  match sel with
  | none =>
      match ms with
      | [] => exact absurd h (by simp [getModel])
      | a :: tl =>
          rw [getModel, Except.ok.injEq] at h
          subst h
          exact List.elem_eq_true_of_mem (by simp)
  | some (.int i) =>
      rw [getModel] at h
      by_cases hc : (ms.length : ℤ) ≤ i
      · rw [if_pos hc] at h; exact absurd h (by simp)
      · rw [if_neg hc, pyIndex] at h
        by_cases h0 : (0 : ℤ) ≤ i
        · rw [if_pos h0, if_pos (by omega)] at h
          rw [Except.ok.injEq] at h
          subst h
          exact List.elem_eq_true_of_mem (getD_mem ms i.toNat (by omega))
        · rw [if_neg h0] at h
          by_cases hn : -(ms.length : ℤ) ≤ i
          · rw [if_pos hn] at h
            rw [Except.ok.injEq] at h
            subst h
            exact List.elem_eq_true_of_mem
              (getD_mem ms ((ms.length : ℤ) + i).toNat (by omega))
          · rw [if_neg hn] at h; exact absurd h (by simp)
  | some (.str s) =>
      rw [getModel] at h
      by_cases hc : ms.contains s = true
      · rw [if_pos hc, Except.ok.injEq] at h
        subst h
        exact hc
      · rw [if_neg hc] at h; exact absurd h (by simp)
  | some (.float q) => exact absurd h (by simp [getModel])

theorem getModel_str_id (ms : List String) (s m : String)
    (h : getModel ms (some (.str s)) = .ok m) : m = s := by
  rw [getModel] at h
  by_cases hc : ms.contains s = true
  · rw [if_pos hc, Except.ok.injEq] at h
    exact h.symm
  · rw [if_neg hc] at h; exact absurd h (by simp)

theorem bandLoop_jget_stable (bs : List String) :
    ∀ (st res : List (String × Json)) (k : String) (v : Json),
      jget st k = some v → jget (bandLoop st res bs).1 k = some v := by
  induction bs with
  | nil => intro st res k v h; exact h
  | cons b tl ih =>
      intro st res k v h
      rw [bandLoop]
      by_cases hb : hasKey st b = true
      · rw [if_pos hb]
        exact ih _ _ k v h
      · rw [if_neg hb]
        refine ih _ _ k v ?_
        have hkb : b ≠ k := by
          intro he
          subst he
          rw [hasKey, h] at hb
          simp at hb
        rw [jget_setKey_ne st b (.str "(arb. units)") k hkb]
        exact h

theorem bandLoop_hasKey_final (bs : List String) :
    ∀ (st res : List (String × Json)) (b : String), b ∈ bs →
      hasKey (bandLoop st res bs).1 b = true := by
  induction bs with
  | nil => intro st res b h; simp at h
  | cons c tl ih =>
      intro st res b hmem
      rw [bandLoop]
      by_cases hc : hasKey st c = true
      · rw [if_pos hc]
        rcases List.mem_cons.mp hmem with hb | hb
        · subst hb
          obtain ⟨v, hv⟩ := Option.isSome_iff_exists.mp hc
          rw [hasKey, bandLoop_jget_stable tl st _ b v hv]
          rfl
        · exact ih _ _ b hb
      · rw [if_neg hc]
        rcases List.mem_cons.mp hmem with hb | hb
        · subst hb
          rw [hasKey, bandLoop_jget_stable tl _ _ b (.str "(arb. units)")
            (jget_setKey_self st b (.str "(arb. units)"))]
          rfl
        · exact ih _ _ b hb

theorem bandLoop_allPresent (bs : List String) :
    ∀ (st res : List (String × Json)),
      (∀ b ∈ bs, hasKey st b = true) →
      bandLoop st res bs =
        (st, bs.foldl (fun r b => setKey r b ((jget st b).getD .null)) res) := by
  induction bs with
  | nil => intro st res _; rfl
  | cons b tl ih =>
      intro st res hall
      rw [bandLoop, if_pos (hall b (by simp)), List.foldl_cons]
      exact ih st _ (fun c hc => hall c (List.mem_cons_of_mem b hc))

theorem bandLoop_res_eq (bs : List String) :
    ∀ (st res : List (String × Json)),
      (bandLoop st res bs).2 =
        bs.foldl (fun r b => setKey r b ((jget (bandLoop st res bs).1 b).getD .null))
          res := by
  induction bs with
  | nil => intro st res; rfl
  | cons b tl ih =>
      intro st res
      rw [bandLoop]
      by_cases hb : hasKey st b = true
      · rw [if_pos hb, List.foldl_cons]
        obtain ⟨v, hv⟩ := Option.isSome_iff_exists.mp hb
        rw [ih st (setKey res b ((jget st b).getD Json.null))]
        rw [bandLoop_jget_stable tl st _ b v hv, hv]
      · rw [if_neg hb, List.foldl_cons]
        rw [ih (setKey st b (.str "(arb. units)")) _]
        rw [bandLoop_jget_stable tl _ _ b (.str "(arb. units)")
          (jget_setKey_self st b (.str "(arb. units)")),
          jget_setKey_self st b (.str "(arb. units)")]

theorem bandLoop_absent_final (bs : List String) :
    ∀ (st res : List (String × Json)) (b : String), b ∈ bs →
      (jget st b = none ∨ jget st b = some (.str "(arb. units)")) →
      jget (bandLoop st res bs).1 b = some (.str "(arb. units)") := by
  induction bs with
  | nil => intro st res b h; simp at h
  | cons c tl ih =>
      intro st res b hmem hpre
      rw [bandLoop]
      by_cases hbc : b = c
      · subst hbc
        rcases hpre with hpre | hpre
        · rw [if_neg (by rw [hasKey, hpre]; simp)]
          exact bandLoop_jget_stable tl _ _ b (.str "(arb. units)")
            (jget_setKey_self st b (.str "(arb. units)"))
        · rw [if_pos (by rw [hasKey, hpre]; rfl)]
          exact bandLoop_jget_stable tl st _ b (.str "(arb. units)") hpre
      · have hb : b ∈ tl := by
          rcases List.mem_cons.mp hmem with h | h
          · exact absurd h hbc
          · exact h
        by_cases hc : hasKey st c = true
        · rw [if_pos hc]
          exact ih st _ b hb hpre
        · rw [if_neg hc]
          refine ih _ _ b hb ?_
          rw [jget_setKey_ne st c (.str "(arb. units)") b (fun he => hbc he.symm)]
          exact hpre

theorem bandLoop_not_mem (bs : List String) :
    ∀ (st res : List (String × Json)) (k : String), k ∉ bs →
      jget (bandLoop st res bs).1 k = jget st k := by
  induction bs with
  | nil => intro st res k _; rfl
  | cons c tl ih =>
      intro st res k hk
      have hkc : k ≠ c := fun he => hk (he ▸ List.mem_cons_self c tl)
      have hktl : k ∉ tl := fun he => hk (List.mem_cons_of_mem c he)
      rw [bandLoop]
      by_cases hc : hasKey st c = true
      · rw [if_pos hc]
        exact ih st _ k hktl
      · rw [if_neg hc]
        rw [ih _ _ k hktl]
        exact jget_setKey_ne st c (.str "(arb. units)") k (Ne.symm hkc)

theorem bandLoop_lookupUnit_time (bs : List String)
    (st res : List (String × Json)) :
    lookupUnit (bandLoop st res bs).1 "time" = lookupUnit st "time" := by
  cases hj : jget st "time" with
  | some v =>
      rw [lookupUnit, lookupUnit, hj, bandLoop_jget_stable bs st res "time" v hj]
  | none =>
      by_cases hmem : "time" ∈ bs
      · rw [lookupUnit, lookupUnit, hj,
          bandLoop_absent_final bs st res "time" hmem (Or.inl hj)]
      · rw [lookupUnit, lookupUnit, bandLoop_not_mem bs st res "time" hmem, hj]

theorem lcGetUniqueBands_congr (doc doc' : Doc) (m : String)
    (hvv : doc'.valid = doc.valid) (hms : doc'.models = doc.models)
    (hrows : modelRows doc' m "data" = modelRows doc m "data") :
    lcGetUniqueBands doc' (some (.str m)) = lcGetUniqueBands doc (some (.str m)) := by
  rw [lcGetUniqueBands, lcGetUniqueBands, hvv, hms]
  by_cases hval : doc.valid = false
  · rw [if_pos hval, if_pos hval]
  · rw [if_neg hval, if_neg hval]
    simp only [bind, Except.bind]
    cases hgm : getModel doc.models (some (.str m)) with
    | error e => rfl
    | ok s =>
        have hs : s = m := getModel_str_id doc.models m s hgm
        subst hs
        dsimp only
        rw [hrows]

theorem lcGetUnitsCore_ok_inv (doc : Doc) (sel : Option Selector)
    (res : List (String × Json)) (doc' : Doc)
    (h : lcGetUnitsCore doc sel = .ok (res, doc')) :
    ∃ m bands dataKvs bodyKvs ukvs,
      getModel doc.models sel = .ok m ∧
      lcGetUniqueBands doc (some (.str m)) = .ok bands ∧
      doc.data = .obj dataKvs ∧
      jget dataKvs m = some (.obj bodyKvs) ∧
      jget bodyKvs "units" = some (.obj ukvs) ∧
      res = (bandLoop ukvs [("time", lookupUnit ukvs "time")] bands).2 ∧
      doc' = { doc with data := .obj (setKey dataKvs m (.obj (setKey bodyKvs "units"
        (.obj (bandLoop ukvs [("time", lookupUnit ukvs "time")] bands).1)))) } := by
  rw [lcGetUnitsCore] at h
  by_cases hval : doc.valid = false
  · rw [if_pos hval] at h
    exact absurd h (by simp)
  · rw [if_neg hval] at h
    cases hm : getModel doc.models sel with
    | error e => rw [hm] at h; simp at h
    | ok m =>
        rw [hm] at h
        dsimp only at h
        cases hbands : lcGetUniqueBands doc (some (.str m)) with
        | error e => rw [hbands] at h; simp at h
        | ok bands =>
            rw [hbands] at h
            dsimp only at h
            cases hdata : doc.data with
            | obj dataKvs =>
                rw [hdata] at h
                dsimp only at h
                cases hjm : jget dataKvs m with
                | none => rw [hjm] at h; simp at h
                | some body =>
                    rw [hjm] at h
                    cases body with
                    | obj bodyKvs =>
                        dsimp only at h
                        cases hju : jget bodyKvs "units" with
                        | none => rw [hju] at h; simp at h
                        | some u =>
                            rw [hju] at h
                            cases u with
                            | obj ukvs =>
                                dsimp only at h
                                simp only [Except.ok.injEq, Prod.mk.injEq] at h
                                exact ⟨m, bands, dataKvs, bodyKvs, ukvs, rfl, hbands,
                                  rfl, hjm, hju, h.1.symm, h.2.symm⟩
                            | null => simp at h
                            | bool b => simp at h
                            | num q => simp at h
                            | str s => simp at h
                            | arr xs => simp at h
                    | null => simp at h
                    | bool b => simp at h
                    | num q => simp at h
                    | str s => simp at h
                    | arr xs => simp at h
            | null => rw [hdata] at h; simp at h
            | bool b => rw [hdata] at h; simp at h
            | num q => rw [hdata] at h; simp at h
            | str s => rw [hdata] at h; simp at h
            | arr xs => rw [hdata] at h; simp at h

/-- C9: on a valid lightcurve document with a resolvable model selector,
calling the units query twice in succession returns the same result both
times: the first call's lazy population of missing band units (the
in-place mutation of the stored units object with the sentinel) does not
change what the second call returns. -/
theorem c9_units_idempotent (doc : Doc) (sel : Option Selector) (m : String)
    (hv : doc.valid = true) (hm : getModel doc.models sel = .ok m) :
    (lcGetUnits ((lcGetUnits doc sel).2) sel).1 = (lcGetUnits doc sel).1 := by
  cases hcore : lcGetUnitsCore doc sel with
  | error e =>
      have h1 : lcGetUnits doc sel = (.error e, doc) := by rw [lcGetUnits, hcore]
      simp [h1]
  | ok p =>
      obtain ⟨res, doc'⟩ := p
      have h1 : lcGetUnits doc sel = (.ok res, doc') := by rw [lcGetUnits, hcore]
      obtain ⟨m0, bands, dataKvs, bodyKvs, ukvs, hm0, hbands, hdata, hjm, hju, hres,
        hdoc'⟩ := lcGetUnitsCore_ok_inv doc sel res doc' hcore
      have hv' : doc'.valid = true := by rw [hdoc']; exact hv
      have hms' : doc'.models = doc.models := by rw [hdoc']
      have hdata' : doc'.data = .obj (setKey dataKvs m0 (.obj (setKey bodyKvs "units"
          (.obj (bandLoop ukvs [("time", lookupUnit ukvs "time")] bands).1)))) := by
        rw [hdoc']
      have hm' : getModel doc'.models sel = .ok m0 := by rw [hms']; exact hm0
      have hrows : modelRows doc' m0 "data" = modelRows doc m0 "data" := by
        simp only [modelRows, modelBody, objField, hdata', hdata, hjm, jget_setKey_self,
          bind, Except.bind]
        rw [jget_setKey_ne bodyKvs "units"
          (.obj (bandLoop ukvs [("time", lookupUnit ukvs "time")] bands).1) "data"
          (by decide)]
      have hbands' : lcGetUniqueBands doc' (some (.str m0)) = .ok bands := by
        rw [lcGetUniqueBands_congr doc doc' m0 (by rw [hv', hv]) hms' hrows]
        exact hbands
      have hall : ∀ b ∈ bands,
          hasKey (bandLoop ukvs [("time", lookupUnit ukvs "time")] bands).1 b = true :=
        fun b hb => bandLoop_hasKey_final bands ukvs _ b hb
      have htime : lookupUnit (bandLoop ukvs [("time", lookupUnit ukvs "time")] bands).1
          "time" = lookupUnit ukvs "time" :=
        bandLoop_lookupUnit_time bands ukvs _
      have hloop2 : bandLoop (bandLoop ukvs [("time", lookupUnit ukvs "time")] bands).1
          [("time", lookupUnit
            (bandLoop ukvs [("time", lookupUnit ukvs "time")] bands).1 "time")] bands =
          ((bandLoop ukvs [("time", lookupUnit ukvs "time")] bands).1,
            bands.foldl (fun r b => setKey r b
              ((jget (bandLoop ukvs [("time", lookupUnit ukvs "time")] bands).1 b).getD
                Json.null))
              [("time", lookupUnit ukvs "time")]) := by
        rw [bandLoop_allPresent bands
          (bandLoop ukvs [("time", lookupUnit ukvs "time")] bands).1 _ hall, htime]
      have hres2 : res = bands.foldl (fun r b => setKey r b
          ((jget (bandLoop ukvs [("time", lookupUnit ukvs "time")] bands).1 b).getD
            Json.null))
          [("time", lookupUnit ukvs "time")] :=
        hres.trans (bandLoop_res_eq bands ukvs [("time", lookupUnit ukvs "time")])
      have hcore2 : ∃ d2, lcGetUnitsCore doc' sel = .ok (res, d2) :=
        ⟨_, by
          simp only [lcGetUnitsCore, hv', Bool.true_eq_false, if_false, hm', hbands',
            hdata', jget_setKey_self, hloop2]
          rw [← hres2]⟩
      obtain ⟨d2, hcore2⟩ := hcore2
      have h2 : lcGetUnits doc' sel = (.ok res, d2) := by rw [lcGetUnits, hcore2]
      rw [h1]
      show (lcGetUnits doc' sel).1 = Except.ok res
      rw [h2]

/-- C9 witness: on the concrete valid lightcurve document whose `V` band
has no stored unit, the first call returns time, B and the lazily
defaulted V entry, and the second call returns the same mapping. -/
theorem c9_units_idempotent_witness :
    (lcGetUnits lcDoc none).1 =
      .ok [("time", .str "s"), ("B", .str "mag"), ("V", .str "(arb. units)")] ∧
    (lcGetUnits ((lcGetUnits lcDoc none).2) none).1 = (lcGetUnits lcDoc none).1 :=
  ⟨by rfl, c9_units_idempotent lcDoc none "test" rfl rfl⟩

end Hesmapy
